import Mathlib

/-!
Verification of the traefik-home page generator (`app/generate_page.py`).

The Python functions `parse_traefik_rule`, `fetch_traefik_routers`,
`build_service_url_map` and `build_app_list` are embedded shallowly below.
Python dicts are modelled as insertion-ordered association lists, Python
strings as Lean `String` (compared code point by code point, as Python does),
and the in-place mutation of the accumulator dicts as explicit state passing
through folds.
-/

namespace TraefikHome

/-! ### Python string primitives -/

/-- Whitespace characters stripped by Python's `str.strip()`. -/
def isPySpace (c : Char) : Bool :=
  c == ' ' || c == '\t' || c == '\n' || c == '\r' || c == Char.ofNat 11 || c == Char.ofNat 12

/-- Test whether `s` starts with `pat`. -/
def isPrefixList : List Char → List Char → Bool
  | [], _ => true
  | _ :: _, [] => false
  | p :: ps, c :: cs => p == c && isPrefixList ps cs

/-- Auxiliary scan for `findSub`: the current absolute index is carried along. -/
def findSubAux (pat : List Char) : List Char → Nat → Option Nat
  | [], i => if isPrefixList pat [] then some i else none
  | s@(_ :: rest), i => if isPrefixList pat s then some i else findSubAux pat rest (i + 1)

/-- Index of the first occurrence of `pat` in `s` (Python `s.find(pat)` when it succeeds). -/
def findSub (s pat : List Char) : Option Nat :=
  findSubAux pat s 0

/-- Python `s.find(pat, start)`: search from index `start`, absolute result. -/
def findSubFrom (s pat : List Char) (start : Nat) : Option Nat :=
  (findSub (s.drop start) pat).map (· + start)

/-- Python `pat in s` on lists of characters. -/
def containsSub (s pat : List Char) : Bool :=
  (findSub s pat).isSome

/-- Python `pat in s` on strings. -/
def containsSubStr (s pat : String) : Bool :=
  containsSub s.data pat.data

/-- Strip characters satisfying `p` from both ends. -/
def pyStripChars (p : Char → Bool) (s : List Char) : List Char :=
  ((s.dropWhile p).reverse.dropWhile p).reverse

/-- Python `s.strip()`. -/
def pyStrip (s : List Char) : List Char :=
  pyStripChars isPySpace s

/-- Python `s.strip(c)` for a single strip character. -/
def stripChar (c : Char) (s : List Char) : List Char :=
  pyStripChars (· == c) s

/-- Python `s.replace("||", "|")`: collapse each (left-to-right, non-overlapping)
double OR token into a single one. -/
def collapseOr : List Char → List Char
  | '|' :: '|' :: rest => '|' :: collapseOr rest
  | c :: rest => c :: collapseOr rest
  | [] => []

/-- Python `s.split(sep)` for a one-character separator: keeps empty parts. -/
def splitOnChar (sep : Char) : List Char → List (List Char)
  | [] => [[]]
  | c :: rest =>
    let r := splitOnChar sep rest
    if c == sep then [] :: r
    else
      match r with
      | [] => [[c]]
      | h :: t => (c :: h) :: t

/-- Python `s.split(sep)[0]`. -/
def pySplitFirst (s : String) (sep : Char) : String :=
  String.mk ((splitOnChar sep s.data).headD [])

/-- Python `s.startswith(p)`. -/
def pyStartsWith (s p : String) : Bool :=
  isPrefixList p.data s.data

/-- Python `s.endswith(p)`. -/
def pyEndsWith (s p : String) : Bool :=
  isPrefixList p.data.reverse s.data.reverse

/-- Python `c in s` for a single character. -/
def containsChar (s : String) (c : Char) : Bool :=
  s.data.contains c

def backtickChar : Char := Char.ofNat 96
def squoteChar : Char := Char.ofNat 39
def dquoteChar : Char := Char.ofNat 34
def lbraceChar : Char := Char.ofNat 123
def rbraceChar : Char := Char.ofNat 125

/-- Python chain `.strip("backtick").strip("'").strip('"')` used on extracted hosts. -/
def stripQuotes (s : List Char) : List Char :=
  stripChar dquoteChar (stripChar squoteChar (stripChar backtickChar s))

/-- Auxiliary for Python `str.title()`: the flag records whether the previous
character was alphabetic. -/
def pyTitleAux : Bool → List Char → List Char
  | _, [] => []
  | prev, c :: rest =>
    (if c.isAlpha then (if prev then c.toLower else c.toUpper) else c) :: pyTitleAux c.isAlpha rest

/-- Python `s.title()`. -/
def pyTitle (s : List Char) : List Char :=
  pyTitleAux false s

/-- Python `service_name.replace("-", " ").title()`, the default display name. -/
def pyTitleName (s : String) : String :=
  String.mk (pyTitle (s.data.map (fun c => if c == '-' then ' ' else c)))

/-- Python `str.lower()` on one character (ASCII range; all inputs of interest
are ASCII). -/
def pyCharLower (c : Char) : Char :=
  if 65 ≤ c.toNat ∧ c.toNat ≤ 90 then Char.ofNat (c.toNat + 32) else c

/-- Python `s.lower()`. -/
def pyLower (s : String) : String :=
  String.mk (s.data.map pyCharLower)

/-- Python string `<`: lexicographic comparison of code points. -/
def strLtB : List Char → List Char → Bool
  | _, [] => false
  | [], _ :: _ => true
  | a :: as, b :: bs =>
    if a.toNat < b.toNat then true
    else if a.toNat = b.toNat then strLtB as bs
    else false

/-- Python `a < b` on strings. -/
def pyStrLt (a b : String) : Bool :=
  strLtB a.data b.data

/-- Python `a <= b` on strings. -/
def pyStrLe (a b : String) : Bool :=
  !(pyStrLt b a)

/-! ### Ordered dictionaries and list utilities -/

/-- Python `dict.fromkeys` / seen-set deduplication: keep the first occurrence of each
element, preserving order. The `seen` accumulator plays the role of Python's set. -/
def dedupAux (seen : List String) : List String → List String
  | [] => []
  | u :: rest => if u ∈ seen then dedupAux seen rest else u :: dedupAux (u :: seen) rest

/-- Remove duplicates, preserving first-seen order. -/
def dedupFirstSeen (l : List String) : List String :=
  dedupAux [] l

/-- Python `d.get(k)` on an insertion-ordered dict. -/
def dictLookup {α : Type} (m : List (String × α)) (k : String) : Option α :=
  (m.find? (fun p => p.1 == k)).map Prod.snd

/-- Python `k in d`. -/
def dictContains {α : Type} (m : List (String × α)) (k : String) : Bool :=
  (dictLookup m k).isSome

/-- Python `d.setdefault(k, []).extend(urls)` pattern used throughout:
append to the entry if present, else add a new entry at the end. -/
def dictExtend (m : List (String × List String)) (k : String) (urls : List String) :
    List (String × List String) :=
  if dictContains m k then m.map (fun p => if p.1 == k then (p.1, p.2 ++ urls) else p)
  else m ++ [(k, urls)]

/-- Stable insertion of `a` into `l`, placed before the first element whose key
is not strictly below `a`'s key. -/
def insertKeyed {α : Type} (key : α → String) (a : α) : List α → List α
  | [] => [a]
  | b :: rest =>
    if pyStrLt (key b) (key a) then b :: insertKeyed key a rest else a :: b :: rest

/-- Stable insertion sort by a string key. Python's `list.sort(key=...)` is a
stable ascending sort, and a stable ascending sort is unique, so this models it
exactly. -/
def sortKeyed {α : Type} (key : α → String) : List α → List α
  | [] => []
  | a :: rest => insertKeyed key a (sortKeyed key rest)

/-- Python `sorted(...)` on a list of strings. -/
def sortStrings (l : List String) : List String :=
  sortKeyed id l

/-- Python `sorted(list(set(l)))`. -/
def sortedDedupStr (l : List String) : List String :=
  sortStrings (dedupFirstSeen l)

/-! ### Rule parser (`parse_traefik_rule`) -/

/-- One OR-branch of a rule, as processed by the loop body of `parse_traefik_rule`. -/
def parsePart (protocol : String) (part0 : List Char) : List String :=
  let part := pyStrip part0
  match findSub part "Host(".data with
  | some i =>
    let start := i + 5
    match findSubFrom part [')'] start with
    | some e =>
      if start < e then
        [protocol ++ "://" ++ String.mk (stripQuotes ((part.drop start).take (e - start)))]
      else []
    | none => []
  | none =>
    match findSub part "HostRegexp(".data with
    | some i =>
      let start := i + 11
      match findSubFrom part [')'] start with
      | some e =>
        if start < e then
          let host := stripQuotes ((part.drop start).take (e - start))
          let host := (host.filter (fun c => !(c == lbraceChar) && !(c == rbraceChar)))
          let host := pyStrip ((splitOnChar ',' host).headD [])
          [protocol ++ "://" ++ String.mk host]
        else []
      | none => []
    | none => []

/-- Embedding of `parse_traefik_rule(rule, protocol)`: split the rule on the OR operator and
extract a URL from each `Host(...)` / `HostRegexp(...)` branch. -/
def parse_traefik_rule (rule : String) (protocol : String) : List String :=
  (splitOnChar '|' (collapseOr rule.data)).flatMap (parsePart protocol)

/-- Scheme inference from entrypoint names (`fetch_traefik_routers`, lines 171-178). -/
def protocolFromEntrypoints (eps : List String) : String :=
  if eps.any (fun ep =>
      let l := pyLower ep
      containsSubStr l "secure" || containsSubStr l "https" || containsSubStr l "websecure")
  then "https" else "http"

/-! ### Router table resolver (`fetch_traefik_routers`) -/

/-- The fields of one router object read from the proxy API response, after the
JSON field-name normalization (`entryPoints`/`entrypoints`, `rule`/`Rule`,
`service`/`Service`) performed at lines 164-166. -/
structure RouterData where
  entryPoints : List String
  rule : String
  service : String
deriving DecidableEq, Repr

/-- Loop body of `fetch_traefik_routers` (lines 158-210) for one
`(router name, router data)` pair. -/
def fetchStep (m : List (String × List String)) (item : String × RouterData) :
    List (String × List String) :=
  let rname := item.1
  let rd := item.2
  if rd.rule == "" then m
  else
    let protocol := protocolFromEntrypoints rd.entryPoints
    let urls := parse_traefik_rule rd.rule protocol
    if urls.isEmpty then m
    else
      let svcNorm := pySplitFirst rd.service '@'
      if pyLower svcNorm == "router" || pyLower rname == "router" then m
      else
        let m := if svcNorm != "" then dictExtend m svcNorm urls else m
        if rname != "" then
          let m := dictExtend m rname urls
          let rnameBase := if containsChar rname '@' then pySplitFirst rname '@' else rname
          if rnameBase != "" && rnameBase != svcNorm then dictExtend m rnameBase urls else m
        else m

/-- Embedding of `fetch_traefik_routers`, from the normalized `(name, data)` pairs to the
service URL map, including the final per-key deduplication (line 216). -/
def fetch_traefik_routers (items : List (String × RouterData)) :
    List (String × List String) :=
  (items.foldl fetchStep []).map (fun p => (p.1, dedupFirstSeen p.2))

/-! ### Label collector (`build_service_url_map`) -/

/-- A Docker container as seen by the collector: its name and its
insertion-ordered label map. -/
structure Container where
  name : String
  labels : List (String × String)
deriving DecidableEq, Repr

/-- Metadata stored for a container with `traefik-home.*` labels (lines 270-277). -/
structure ServiceMetadata where
  icon : String
  «alias» : String
  hide : Bool
  is_admin : Bool
  enable : String
deriving DecidableEq, Repr

/-- Python `labels.get("com.docker.compose.service", container.name)` (line 254). -/
def resolvedServiceName (c : Container) : String :=
  (dictLookup c.labels "com.docker.compose.service").getD c.name

/-- Loop body over one container label (lines 280-313): keys of shape
`traefik.http.routers.<name>.rule` contribute URLs, except routers whose name
contains "redirect". -/
def labelRuleStep (serviceName : String) (labels : List (String × String))
    (su : List (String × List String)) (kv : String × String) :
    List (String × List String) :=
  if pyStartsWith kv.1 "traefik.http.routers." && pyEndsWith kv.1 ".rule" then
    let parts := splitOnChar '.' kv.1.data
    if 4 ≤ parts.length then
      let routerName := String.mk (parts.getD 3 [])
      if containsSubStr (pyLower routerName) "redirect" then su
      else
        let protocol :=
          match dictLookup labels ("traefik.http.routers." ++ routerName ++ ".entrypoints") with
          | some eps =>
            let epsL := pyLower eps
            if containsSubStr epsL "websecure" || containsSubStr epsL "https" then "https"
            else "http"
          | none => "http"
        let urls := parse_traefik_rule kv.2 protocol
        if !urls.isEmpty && serviceName != "" then
          dictExtend (dictExtend su serviceName urls) (routerName ++ "@docker") urls
        else su
    else su
  else su

/-- Loop body of `build_service_url_map` over one container (lines 250-313):
skip the traefik-home container, record opt-in metadata, collect router rules. -/
def containerStep (st : (List (String × List String)) × (List (String × ServiceMetadata)))
    (c : Container) : (List (String × List String)) × (List (String × ServiceMetadata)) :=
  let serviceName := resolvedServiceName c
  if serviceName == "traefik-home" then st
  else
    let labels := c.labels
    let hasTH := labels.any (fun kv => pyStartsWith kv.1 "traefik-home.")
    let icon := (dictLookup labels "traefik-home.icon").getD ""
    let aliasV := (dictLookup labels "traefik-home.alias").getD ""
    let hide := pyLower ((dictLookup labels "traefik-home.hide").getD "") == "true"
    let isAdmin := pyLower ((dictLookup labels "traefik-home.admin").getD "") == "true"
    let enable := pyLower ((dictLookup labels "traefik-home.enable").getD "")
    let sm :=
      if hasTH && !(dictContains st.2 serviceName) then
        st.2 ++ [(serviceName,
          ⟨icon, aliasV, hide, isAdmin, if enable == "" then "true" else enable⟩)]
      else st.2
    (labels.foldl (labelRuleStep serviceName labels) st.1, sm)

/-- State of `build_service_url_map` before the final per-key deduplication: the Traefik
API contribution `t` seeds the map (line 241), then the containers are folded. -/
def rawBuildServiceUrlMap (t : List (String × List String)) (cs : List Container) :
    (List (String × List String)) × (List (String × ServiceMetadata)) :=
  cs.foldl containerStep (t, [])

/-- Embedding of `build_service_url_map` (lines 221-325), including the final per-key
first-seen deduplication (lines 315-323). -/
def build_service_url_map (t : List (String × List String)) (cs : List Container) :
    (List (String × List String)) × (List (String × ServiceMetadata)) :=
  let st := rawBuildServiceUrlMap t cs
  (st.1.map (fun p => (p.1, dedupFirstSeen p.2)), st.2)

/-! ### Merge engine (`build_app_list`) -/

/-- A record from the overrides JSON file; every field is sparse. -/
structure OverrideRecord where
  Name : Option String := none
  Icon : Option String := none
  Description : Option String := none
  Category : Option String := none
  Badge : Option String := none
  Enable : Option Bool := none
  Hide : Option Bool := none
  Url : Option String := none
  URLs : Option (List String) := none
deriving DecidableEq, Repr

/-- An external app declaration built from `traefik-home.app.<name>.<attr>`
labels by `get_external_apps_from_labels` (lines 557-611); sparse fields. -/
structure ExternalAppConfig where
  enabled : Option Bool := none
  «alias» : Option String := none
  icon : Option String := none
  urls : Option (List String) := none
  is_admin : Option Bool := none
  category : Option String := none
  description : Option String := none
deriving DecidableEq, Repr

/-- One output record of `build_app_list`. -/
structure AppEntry where
  name : String
  urls : List String
  icon : String
  description : String
  category : String
  badge : String
deriving DecidableEq, Repr

/-- Empty override dict entry (`overrides.get(service_name, {})`). -/
def noOverride : OverrideRecord := {}

/-- First pass of `build_app_list` (lines 423-469): one label-sourced service
URL map entry to at most one app. -/
def labelEntry (sm : List (String × ServiceMetadata)) (ov : List (String × OverrideRecord))
    (ea : List (String × ExternalAppConfig)) (p : String × List String) : Option AppEntry :=
  let serviceName := p.1
  if pyEndsWith serviceName "@docker" || pyEndsWith serviceName "@file" then none
  else if dictContains ea serviceName then none
  else
    match dictLookup sm serviceName with
    | none => none
    | some md =>
      let o := (dictLookup ov serviceName).getD noOverride
      if md.hide || o.Hide.getD false then none
      else if !(o.Enable.getD true) then none
      else
        some
          { name := o.Name.getD (if md.«alias» != "" then md.«alias» else pyTitleName serviceName)
            urls := p.2
            icon := if md.icon != "" then md.icon else o.Icon.getD ""
            description := o.Description.getD ""
            category := o.Category.getD (if md.is_admin then "Admin" else "Apps")
            badge := o.Badge.getD "" }

/-- The "flexible matching" predicate of the external-app pass (lines 485-489). -/
def fuzzyMatch (appName svcKey : String) : Bool :=
  appName == svcKey || containsSubStr svcKey appName || containsSubStr appName svcKey ||
    pyStartsWith svcKey (appName ++ "-") || pyStartsWith appName (svcKey ++ "-")

/-- Second pass of `build_app_list` (lines 472-518): one external-app
declaration to at most one app. -/
def externalEntry (su : List (String × List String)) (p : String × ExternalAppConfig) :
    Option AppEntry :=
  let appName := p.1
  let cfg := p.2
  if !(cfg.enabled.getD false) then none
  else
    let collected :=
      ((su.filter (fun q => q.1 != "" && fuzzyMatch appName q.1)).map Prod.snd).flatten
    let urls0 := sortedDedupStr collected
    let urls :=
      match cfg.urls with
      | some us => sortedDedupStr (urls0 ++ us)
      | none => urls0
    if urls.isEmpty then none
    else
      some
        { name := cfg.«alias».getD (pyTitleName appName)
          urls := urls
          icon := cfg.icon.getD ""
          description := cfg.description.getD ""
          category := cfg.category.getD (if cfg.is_admin.getD false then "Admin" else "Apps")
          badge := "" }

/-- Third pass of `build_app_list` (lines 520-549): one override-only record to
at most one app. -/
def overrideOnlyEntry (serviceName : String) (o : OverrideRecord) : Option AppEntry :=
  if o.Hide.getD false then none
  else if !(o.Enable.getD false) then none
  else
    let urls :=
      match o.Url with
      | some u => [u]
      | none => o.URLs.getD []
    if urls.isEmpty then none
    else
      some
        { name := o.Name.getD (pyTitleName serviceName)
          urls := urls
          icon := o.Icon.getD ""
          description := o.Description.getD ""
          category := o.Category.getD "Apps"
          badge := o.Badge.getD "" }

/-- The merged list in encounter order, before the final sort (lines 419-549). -/
def preSortAppList (su : List (String × List String)) (sm : List (String × ServiceMetadata))
    (ov : List (String × OverrideRecord)) (ea : List (String × ExternalAppConfig)) :
    List AppEntry :=
  (su.filterMap (labelEntry sm ov ea)) ++
    (ea.filterMap (externalEntry su)) ++
    ((ov.filter (fun p => !(dictContains su p.1) && !(dictContains ea p.1))).filterMap
      (fun p => overrideOnlyEntry p.1 p.2))

/-- Embedding of `build_app_list` (lines 391-554), ending with the stable ascending sort by
display name (line 552). -/
def build_app_list (su : List (String × List String)) (sm : List (String × ServiceMetadata))
    (ov : List (String × OverrideRecord)) (ea : List (String × ExternalAppConfig)) :
    List AppEntry :=
  sortKeyed AppEntry.name (preSortAppList su sm ov ea)

/-! ### Order lemmas for the Python string comparison -/

theorem strLtB_irrefl : ∀ l : List Char, strLtB l l = false
  | [] => rfl
  | c :: cs => by simp [strLtB, strLtB_irrefl cs]

theorem strLtB_asymm : ∀ a b : List Char, strLtB a b = true → strLtB b a = false
  | _, [], h => by simp [strLtB] at h
  | [], _ :: _, _ => rfl
  | a :: as, b :: bs, h => by
    simp only [strLtB] at h ⊢
    rcases Nat.lt_trichotomy a.toNat b.toNat with h1 | h1 | h1
    · rw [if_neg (by omega), if_neg (by omega)]
    · rw [if_neg (by omega), if_pos h1] at h
      rw [if_neg (by omega), if_pos h1.symm]
      exact strLtB_asymm as bs h
    · rw [if_neg (by omega), if_neg (by omega)] at h
      exact absurd h (by simp)

theorem strLtB_le_trans : ∀ a b c : List Char,
    strLtB b a = false → strLtB c b = false → strLtB c a = false
  | a, b, [], h1, h2 => by
    cases a with
    | nil => rfl
    | cons a0 as =>
      cases b with
      | nil => simp [strLtB] at h1
      | cons b0 bs => simp [strLtB] at h2
  | a, [], c0 :: cs, h1, h2 => by
    cases a with
    | nil => rfl
    | cons a0 as => simp [strLtB] at h1
  | [], b0 :: bs, c0 :: cs, h1, h2 => rfl
  | a0 :: as, b0 :: bs, c0 :: cs, h1, h2 => by
    simp only [strLtB] at h1 h2 ⊢
    split_ifs at h1 h2 ⊢ with q1 q2 q3 q4 q5 q6 <;>
      first
        | rfl
        | (exact strLtB_le_trans as bs cs h1 h2)
        | omega

theorem pyStrLe_trans {a b c : String} (h1 : pyStrLe a b = true) (h2 : pyStrLe b c = true) :
    pyStrLe a c = true := by
  simp only [pyStrLe, pyStrLt, Bool.not_eq_true'] at h1 h2 ⊢
  exact strLtB_le_trans a.data b.data c.data h1 h2

/-! ### Lemmas about the stable insertion sort -/

theorem mem_insertKeyed {α : Type} (key : α → String) (a x : α) :
    ∀ l : List α, x ∈ insertKeyed key a l ↔ x = a ∨ x ∈ l := by
  intro l
  induction l with
  | nil => simp [insertKeyed]
  | cons b rest ih =>
    cases hlt : pyStrLt (key b) (key a) with
    | false => simp [insertKeyed, hlt]
    | true =>
      simp only [insertKeyed, hlt, if_true, List.mem_cons, ih]
      tauto

theorem perm_insertKeyed {α : Type} (key : α → String) (a : α) :
    ∀ l : List α, (insertKeyed key a l).Perm (a :: l) := by
  intro l
  induction l with
  | nil => simp [insertKeyed]
  | cons b rest ih =>
    cases hlt : pyStrLt (key b) (key a) with
    | false => simp [insertKeyed, hlt]
    | true =>
      simp only [insertKeyed, hlt, if_true]
      exact (ih.cons b).trans (List.Perm.swap a b rest)

theorem perm_sortKeyed {α : Type} (key : α → String) :
    ∀ l : List α, (sortKeyed key l).Perm l := by
  intro l
  induction l with
  | nil => simp [sortKeyed]
  | cons a rest ih =>
    exact (perm_insertKeyed key a (sortKeyed key rest)).trans (ih.cons a)

theorem pairwise_insertKeyed {α : Type} (key : α → String) (a : α) :
    ∀ l : List α, List.Pairwise (fun x y => pyStrLe (key x) (key y) = true) l →
      List.Pairwise (fun x y => pyStrLe (key x) (key y) = true) (insertKeyed key a l) := by
  intro l
  induction l with
  | nil => intro _; simp [insertKeyed]
  | cons b rest ih =>
    intro h
    rcases List.pairwise_cons.mp h with ⟨hb, hrest⟩
    cases hlt : pyStrLt (key b) (key a) with
    | false =>
      simp only [insertKeyed, hlt, Bool.false_eq_true, if_false]
      refine List.pairwise_cons.mpr ⟨?_, h⟩
      intro y hy
      rcases List.mem_cons.mp hy with rfl | hy
      · simp [pyStrLe, hlt]
      · have h1 : pyStrLe (key a) (key b) = true := by simp [pyStrLe, hlt]
        exact pyStrLe_trans h1 (hb y hy)
    | true =>
      simp only [insertKeyed, hlt, if_true]
      refine List.pairwise_cons.mpr ⟨?_, ih hrest⟩
      intro y hy
      rcases (mem_insertKeyed key a y rest).mp hy with rfl | hy
      · simp only [pyStrLe, pyStrLt]
        rw [strLtB_asymm _ _ hlt]
        rfl
      · exact hb y hy

theorem pairwise_sortKeyed {α : Type} (key : α → String) :
    ∀ l : List α, List.Pairwise (fun x y => pyStrLe (key x) (key y) = true) (sortKeyed key l) := by
  intro l
  induction l with
  | nil => simp [sortKeyed]
  | cons a rest ih => exact pairwise_insertKeyed key a (sortKeyed key rest) ih

theorem filter_insertKeyed {α : Type} (key : α → String) (a : α) (n : String) :
    ∀ l : List α, (insertKeyed key a l).filter (fun x => key x == n) =
      if key a == n then a :: l.filter (fun x => key x == n)
      else l.filter (fun x => key x == n) := by
  intro l
  induction l with
  | nil => simp [insertKeyed, List.filter_cons]
  | cons b rest ih =>
    cases hlt : pyStrLt (key b) (key a) with
    | false =>
      simp only [insertKeyed, hlt, Bool.false_eq_true, if_false]
      rw [List.filter_cons]
    | true =>
      simp only [insertKeyed, hlt, if_true]
      rw [List.filter_cons, ih, List.filter_cons]
      by_cases hbn : (key b == n) = true
      · by_cases han : (key a == n) = true
        · exfalso
          have hb' : key b = n := by simpa using hbn
          have ha' : key a = n := by simpa using han
          rw [hb', ha', pyStrLt, strLtB_irrefl] at hlt
          exact absurd hlt (by simp)
        · simp [hbn, han]
      · by_cases han : (key a == n) = true
        · simp [hbn, han]
        · simp [hbn, han]

theorem filter_sortKeyed {α : Type} (key : α → String) (n : String) :
    ∀ l : List α, (sortKeyed key l).filter (fun x => key x == n) =
      l.filter (fun x => key x == n) := by
  intro l
  induction l with
  | nil => simp [sortKeyed]
  | cons a rest ih =>
    show (insertKeyed key a (sortKeyed key rest)).filter _ = _
    rw [filter_insertKeyed, List.filter_cons, ih]

theorem mem_sortKeyed {α : Type} (key : α → String) (x : α) (l : List α) :
    x ∈ sortKeyed key l ↔ x ∈ l :=
  (perm_sortKeyed key l).mem_iff

/-! ### Lemmas about first-seen deduplication -/

theorem dedupAux_sublist : ∀ (l seen : List String), (dedupAux seen l).Sublist l := by
  intro l
  induction l with
  | nil => intro seen; simp [dedupAux]
  | cons u rest ih =>
    intro seen
    by_cases h : u ∈ seen
    · simp only [dedupAux, if_pos h]
      exact (ih seen).cons u
    · simp only [dedupAux, if_neg h]
      exact (ih (u :: seen)).cons₂ u

theorem mem_dedupAux : ∀ (l : List String) (seen : List String) (a : String),
    a ∈ dedupAux seen l ↔ a ∈ l ∧ a ∉ seen := by
  intro l
  induction l with
  | nil => intro seen a; simp [dedupAux]
  | cons u rest ih =>
    intro seen a
    by_cases h : u ∈ seen
    · have hua : a = u → a ∈ seen := fun he => he ▸ h
      simp only [dedupAux, if_pos h, ih, List.mem_cons]
      tauto
    · simp only [dedupAux, if_neg h, List.mem_cons, ih]
      constructor
      · rintro (rfl | ⟨hr, hs⟩)
        · exact ⟨Or.inl rfl, h⟩
        · exact ⟨Or.inr hr, fun hm => hs (Or.inr hm)⟩
      · rintro ⟨rfl | hr, hs⟩
        · exact Or.inl rfl
        · by_cases hau : a = u
          · exact Or.inl hau
          · exact Or.inr ⟨hr, by simp [hau, hs]⟩

theorem nodup_dedupAux : ∀ (l seen : List String), (dedupAux seen l).Nodup := by
  intro l
  induction l with
  | nil => intro seen; simp [dedupAux]
  | cons u rest ih =>
    intro seen
    by_cases h : u ∈ seen
    · simpa only [dedupAux, if_pos h] using ih seen
    · simp only [dedupAux, if_neg h, List.nodup_cons]
      refine ⟨fun hm => ?_, ih (u :: seen)⟩
      exact ((mem_dedupAux rest (u :: seen) u).mp hm).2 (List.mem_cons_self u seen)

theorem dedupFirstSeen_sublist (l : List String) : (dedupFirstSeen l).Sublist l :=
  dedupAux_sublist l []

theorem dedupFirstSeen_nodup (l : List String) : (dedupFirstSeen l).Nodup :=
  nodup_dedupAux l []

theorem sortedDedupStr_nodup (l : List String) : (sortedDedupStr l).Nodup :=
  ((perm_sortKeyed id (dedupFirstSeen l)).nodup_iff).mpr (dedupFirstSeen_nodup l)

theorem sortedDedupStr_sorted (l : List String) :
    List.Pairwise (fun a b => pyStrLe a b = true) (sortedDedupStr l) :=
  pairwise_sortKeyed id (dedupFirstSeen l)

/-! ### Totality lemmas for the rule parser -/

theorem mem_of_findSubAux_singleton (c : Char) :
    ∀ (s : List Char) (k i : Nat), findSubAux [c] s k = some i → c ∈ s := by
  intro s
  induction s with
  | nil => intro k i h; simp [findSubAux, isPrefixList] at h
  | cons d rest ih =>
    intro k i h
    by_cases hcd : c = d
    · subst hcd
      exact List.mem_cons_self c rest
    · have hrec : findSubAux [c] rest (k + 1) = some i := by
        simpa [findSubAux, isPrefixList, hcd] using h
      exact List.mem_cons_of_mem d (ih (k + 1) i hrec)

theorem mem_of_findSubFrom_singleton {s : List Char} {c : Char} {k e : Nat}
    (h : findSubFrom s [c] k = some e) : c ∈ s := by
  simp only [findSubFrom, findSub, Option.map_eq_some'] at h
  rcases h with ⟨i, hi, _⟩
  exact List.Sublist.mem (mem_of_findSubAux_singleton c _ 0 i hi) (List.drop_sublist k s)

theorem mem_pyStrip {s : List Char} {c : Char} (h : c ∈ pyStrip s) : c ∈ s := by
  simp only [pyStrip, pyStripChars, List.mem_reverse] at h
  have h2 : c ∈ (s.dropWhile isPySpace).reverse :=
    List.Sublist.mem h (List.dropWhile_sublist _)
  exact List.Sublist.mem (List.mem_reverse.mp h2) (List.dropWhile_sublist _)

theorem parsePart_shape (protocol : String) (part : List Char) (u : String)
    (h : u ∈ parsePart protocol part) : ∃ r, u = protocol ++ "://" ++ r := by
  simp only [parsePart] at h
  split at h
  · split at h
    · split at h
      · exact ⟨_, (List.mem_singleton.mp h)⟩
      · simp at h
    · simp at h
  · split at h
    · split at h
      · split at h
        · exact ⟨_, (List.mem_singleton.mp h)⟩
        · simp at h
      · simp at h
    · simp at h

theorem parsePart_no_rparen (protocol : String) (part : List Char) (h : ')' ∉ part) :
    parsePart protocol part = [] := by
  simp only [parsePart]
  split
  · split
    · rename_i heq
      exact absurd (mem_pyStrip (mem_of_findSubFrom_singleton heq)) h
    · rfl
  · split
    · split
      · rename_i heq
        exact absurd (mem_pyStrip (mem_of_findSubFrom_singleton heq)) h
      · rfl
    · rfl

/-! ### Claim theorems -/

/-- C7: parsing the rule `Host(\x60a.com\x60) || Host(\x60b.com\x60)` with entrypoint set
`["websecure"]` yields exactly `{"https://a.com", "https://b.com"}`: an
entrypoint name containing "websecure" selects the https scheme, and the rule
is split on the OR operator with each Host atom's quoted hostname extracted. -/
theorem C7_parse_rule_example :
    protocolFromEntrypoints ["websecure"] = "https" ∧
    parse_traefik_rule "Host(`a.com`) || Host(`b.com`)" "https" =
      ["https://a.com", "https://b.com"] := by
  constructor
  · decide
  · decide

/-- C9: a container whose resolved service name is exactly "traefik-home" is
skipped by `build_service_url_map`'s container loop: it contributes neither
metadata nor URLs, even when it carries traefik-home and routing-rule labels. -/
theorem C9_traefik_home_skipped
    (st : (List (String × List String)) × (List (String × ServiceMetadata)))
    (c : Container) (h : resolvedServiceName c = "traefik-home") :
    containerStep st c = st := by
  simp [containerStep, h]

/-- Witness for C9: a concrete traefik-home container carrying both an opt-in
`traefik-home.*` label and a routing-rule label contributes nothing. -/
theorem C9_traefik_home_skipped_witness :
    containerStep ([], []) ⟨"traefik-home",
      [("traefik-home.icon", "x"), ("traefik.http.routers.home.rule", "Host(`h.local`)")]⟩ =
      ([], []) :=
  C9_traefik_home_skipped _ _ (by decide)

/-- C10: the rule parser is total by construction; every URL it returns starts
with the given protocol followed by "://", and an OR-branch with no closing
parenthesis (so in particular a `Host(`/`HostRegexp(` atom that is never
closed) contributes nothing rather than failing. -/
theorem C10_parser_total :
    (∀ rule protocol u, u ∈ parse_traefik_rule rule protocol →
      ∃ r, u = protocol ++ "://" ++ r) ∧
    (∀ (protocol : String) (part : List Char), ')' ∉ part → parsePart protocol part = []) := by
  constructor
  · intro rule protocol u h
    rcases List.mem_flatMap.mp h with ⟨part, _, hp⟩
    exact parsePart_shape protocol part u hp
  · intro protocol part h
    exact parsePart_no_rparen protocol part h

/-- Witness for C10 at concrete inputs: a parsed URL carries the protocol
prefix, and a branch missing its closing parenthesis yields no URL. -/
theorem C10_parser_total_witness :
    (∃ r, "http://a.com" = "http" ++ "://" ++ r) ∧
    parsePart "http" "Host(`a.com".data = [] :=
  ⟨C10_parser_total.1 "Host(`a.com`)" "http" "http://a.com" (by decide),
   C10_parser_total.2 "http" "Host(`a.com".data (by decide)⟩

/-- C1 (counterexample): the claimed invariant fails. A router-table entry
named "router@file" (service "svc") passes the skip check — which only tests
the normalized service name and the full router identifier — and its
suffix-stripped base name then introduces the key "router" into the map built
by `build_service_url_map`. -/
theorem C1_router_key_appears :
    "router" ∈ ((build_service_url_map
      (fetch_traefik_routers [("router@file", ⟨["web"], "Host(`a.com`)", "svc"⟩)])
      []).1.map Prod.fst) := by decide

/-- C1 (amended): a router-table entry whose normalized service name or full
router identifier equals "router" case-insensitively is skipped entirely and
contributes no keys at all; keys equal to "router" can still enter the map via
a router identifier's suffix-stripped base name or via a Docker-derived
service name. -/
theorem C1_router_entries_skipped (m : List (String × List String)) (rname : String)
    (rd : RouterData)
    (h : pyLower (pySplitFirst rd.service '@') = "router" ∨ pyLower rname = "router") :
    fetchStep m (rname, rd) = m := by
  have hc : (pyLower (pySplitFirst rd.service '@') == "router" ||
      pyLower rname == "router") = true := by
    rcases h with h | h <;> simp [h]
  simp only [fetchStep, hc]
  split
  · rfl
  · split
    · rfl
    · simp

/-- Witness for C1 (amended): a router entry literally named "Router" is
skipped. -/
theorem C1_router_entries_skipped_witness :
    fetchStep [] ("Router", ⟨["web"], "Host(`a.com`)", "x"⟩) = [] :=
  C1_router_entries_skipped [] "Router" ⟨["web"], "Host(`a.com`)", "x"⟩ (Or.inr (by decide))

/-- C2 (counterexample): a router fetched from the proxy's router-table API is
not filtered by name: the entry "app-redirect" contributes URLs even though its
name contains "redirect". -/
theorem C2_api_redirect_not_filtered :
    fetch_traefik_routers [("app-redirect", ⟨["web"], "Host(`a.com`)", "svc"⟩)] =
      [("svc", ["http://a.com"]), ("app-redirect", ["http://a.com"])] := by decide

/-- C2 (amended): only in the Docker-label path does a router whose name
contains "redirect" (case-insensitively) contribute zero URLs, regardless of
its rule content; the router-table API path applies no such filter. -/
theorem C2_label_redirect_skipped (sn : String) (labels : List (String × String))
    (su : List (String × List String)) (k v : String)
    (h : containsSubStr (pyLower (String.mk ((splitOnChar '.' k.data).getD 3 [])))
      "redirect" = true) :
    labelRuleStep sn labels su (k, v) = su := by
  simp only [labelRuleStep]
  repeat' split
  all_goals first | rfl | exact absurd h (by assumption)

/-- Witness for C2 (amended): a Docker-label router named "http-redirect" with
a well-formed Host rule contributes nothing. -/
theorem C2_label_redirect_skipped_witness :
    labelRuleStep "svc" [] [] ("traefik.http.routers.http-redirect.rule", "Host(`a.com`)") =
      [] :=
  C2_label_redirect_skipped "svc" [] [] "traefik.http.routers.http-redirect.rule"
    "Host(`a.com`)" (by decide)

/-- C6: for a label-sourced entity whose metadata has `hide = true`, the first
pass of `build_app_list` omits it whatever the override record says — in
particular an override with `Hide = false` cannot un-hide it, since the
effective hide flag is the OR of the two. -/
theorem C6_hide_is_or (sm : List (String × ServiceMetadata))
    (ov : List (String × OverrideRecord)) (ea : List (String × ExternalAppConfig))
    (n : String) (urls : List String) (md : ServiceMetadata)
    (hmd : dictLookup sm n = some md) (hhide : md.hide = true) :
    labelEntry sm ov ea (n, urls) = none := by
  simp only [labelEntry, hmd, hhide]
  repeat' split
  all_goals simp_all

/-- Witness for C6: a concrete hidden service with an override `Hide = false`
is still omitted. -/
theorem C6_hide_is_or_witness :
    labelEntry [("app", ⟨"", "", true, false, "true"⟩)] [("app", { Hide := some false })] []
      ("app", ["http://u"]) = none :=
  C6_hide_is_or _ _ _ "app" ["http://u"] ⟨"", "", true, false, "true"⟩ (by decide) rfl

/-- C5: an override-only record (key in neither the service URL map nor the
external apps) with no `Enable` field yields no app; with `Enable = true` and
`Url = "https://x"` it yields an app whose urls are exactly `["https://x"]`,
and any app produced from such a record appears in the output of
`build_app_list`. -/
theorem C5_override_only_enable :
    (∀ (n : String) (o : OverrideRecord), o.Enable = none → overrideOnlyEntry n o = none) ∧
    (∀ (n : String) (o : OverrideRecord), o.Enable = some true → o.Hide = none →
      o.Url = some "https://x" →
      ∃ e, overrideOnlyEntry n o = some e ∧ e.urls = ["https://x"]) ∧
    (∀ su sm ov ea (n : String) (o : OverrideRecord) (e : AppEntry), (n, o) ∈ ov →
      dictContains su n = false → dictContains ea n = false →
      overrideOnlyEntry n o = some e → e ∈ build_app_list su sm ov ea) := by
  refine ⟨?_, ?_, ?_⟩
  · intro n o h
    simp [overrideOnlyEntry, h]
  · intro n o h1 h2 h3
    refine ⟨⟨o.Name.getD (pyTitleName n), ["https://x"], o.Icon.getD "", o.Description.getD "",
      o.Category.getD "Apps", o.Badge.getD ""⟩, ?_, rfl⟩
    simp [overrideOnlyEntry, h1, h2, h3]
  · intro su sm ov ea n o e hov hsu hea hsome
    rw [build_app_list, (perm_sortKeyed AppEntry.name _).mem_iff]
    refine List.mem_append_right _ ?_
    refine List.mem_filterMap.mpr ⟨(n, o), ?_, hsome⟩
    refine List.mem_filter.mpr ⟨hov, ?_⟩
    simp [hsu, hea]

/-- Witness for C5: the record with no Enable field is dropped; with
`Enable = true, Url = "https://x"` the app appears in the final output with
that single URL. -/
theorem C5_override_only_enable_witness :
    overrideOnlyEntry "ext" {} = none ∧
    (∃ e, overrideOnlyEntry "ext" { Enable := some true, Url := some "https://x" } = some e ∧
      e.urls = ["https://x"]) ∧
    (⟨"Ext", ["https://x"], "", "", "Apps", ""⟩ : AppEntry) ∈
      build_app_list [] [] [("ext", { Enable := some true, Url := some "https://x" })] [] :=
  ⟨C5_override_only_enable.1 "ext" {} rfl,
   C5_override_only_enable.2.1 "ext" { Enable := some true, Url := some "https://x" } rfl rfl rfl,
   C5_override_only_enable.2.2 [] [] [("ext", { Enable := some true, Url := some "https://x" })]
     [] "ext" { Enable := some true, Url := some "https://x" }
     ⟨"Ext", ["https://x"], "", "", "Apps", ""⟩ (by decide) rfl rfl (by decide)⟩

/-- C8: the final list of `build_app_list` is sorted by display name in
ascending, case-sensitive (code point) order, and the sort is stable: for every
name, the entries carrying it appear in exactly their encounter order from the
three merge passes. -/
theorem C8_sorted_stable (su : List (String × List String))
    (sm : List (String × ServiceMetadata)) (ov : List (String × OverrideRecord))
    (ea : List (String × ExternalAppConfig)) :
    List.Pairwise (fun a b : AppEntry => pyStrLe a.name b.name = true)
      (build_app_list su sm ov ea) ∧
    ∀ n : String, (build_app_list su sm ov ea).filter (fun a => a.name == n) =
      (preSortAppList su sm ov ea).filter (fun a => a.name == n) := by
  constructor
  · exact pairwise_sortKeyed AppEntry.name (preSortAppList su sm ov ea)
  · intro n
    exact filter_sortKeyed AppEntry.name n (preSortAppList su sm ov ea)

/-- C4 (counterexample): an external-app declaration is never resolved by
exact-key lookup alone. The declaration "app" has no explicit URLs and no exact
key "app" exists in the map, yet it is not dropped: fuzzy matching resolves it
against the key "app-extra" and the app is emitted with that key's URL. -/
theorem C4_fuzzy_not_exact :
    build_app_list [("app-extra", ["http://x"])] [] [] [("app", { enabled := some true })] =
      [⟨"App", ["http://x"], "", "", "Apps", ""⟩] := by decide

/-- C4 (amended): external-app declarations have no explicit router-reference
field; an enabled declaration without explicit URLs is resolved by fuzzy name
matching over the service URL map keys, and when no key matches it is dropped
(with a diagnostic) rather than silently kept. -/
theorem C4_no_match_dropped (su : List (String × List String)) (n : String)
    (cfg : ExternalAppConfig) (hurls : cfg.urls = none)
    (hmatch : ∀ p ∈ su, p.1 ≠ "" → fuzzyMatch n p.1 = false) :
    externalEntry su (n, cfg) = none := by
  have hfil : su.filter (fun q => q.1 != "" && fuzzyMatch n q.1) = [] := by
    refine List.filter_eq_nil_iff.mpr ?_
    intro q hq
    by_cases hq1 : q.1 = ""
    · simp [hq1]
    · simp [hq1, hmatch q hq hq1]
  simp [externalEntry, hfil, hurls, sortedDedupStr, sortStrings, dedupFirstSeen, dedupAux,
    sortKeyed]

/-- Witness for C4 (amended): an enabled declaration named "app" with no
explicit URLs and a map whose only key does not fuzzy-match is dropped. -/
theorem C4_no_match_dropped_witness :
    externalEntry [("zzz", ["u"])] ("app", { enabled := some true }) = none :=
  C4_no_match_dropped [("zzz", ["u"])] "app" { enabled := some true } rfl (by decide)

/-- C3 (counterexample): the urls field of an emitted entry is not always the
source URLs deduplicated in first-seen order. The override-only entry "aaa"
keeps its duplicate URL, and the external-app entry "zzz" has its URLs sorted
(["http://a", "http://b"]) instead of first-seen order (b before a). -/
theorem C3_urls_not_first_seen_dedup :
    build_app_list [] []
      [("aaa", { Enable := some true, URLs := some ["http://x", "http://x"] })]
      [("zzz", { enabled := some true, urls := some ["http://b", "http://a"] })] =
      [⟨"Aaa", ["http://x", "http://x"], "", "", "Apps", ""⟩,
       ⟨"Zzz", ["http://a", "http://b"], "", "", "Apps", ""⟩] := by decide

/-- C3 (amended): label-sourced entries copy their urls verbatim from the
service URL map, whose values are deduplicated preserving first-seen order
(each stored list is a duplicate-free sublist — hence an order-preserving
subsequence — of the accumulated raw list); external-app entries emit their
URLs deduplicated but in ascending sorted order; override-only entries emit the
override-provided URL list verbatim, without deduplication. -/
theorem C3_urls_shape :
    (∀ t cs k v, (k, v) ∈ (build_service_url_map t cs).1 →
      ∃ raw, (k, raw) ∈ (rawBuildServiceUrlMap t cs).1 ∧ v = dedupFirstSeen raw ∧
        v.Sublist raw ∧ v.Nodup) ∧
    (∀ sm ov ea p e, labelEntry sm ov ea p = some e → e.urls = p.2) ∧
    (∀ su p e, externalEntry su p = some e →
      e.urls.Nodup ∧ List.Pairwise (fun a b => pyStrLe a b = true) e.urls) ∧
    (∀ (n : String) (o : OverrideRecord) (e : AppEntry), overrideOnlyEntry n o = some e →
      e.urls = match o.Url with | some u => [u] | none => o.URLs.getD []) := by
  refine ⟨?_, ?_, ?_, ?_⟩
  · intro t cs k v hmem
    simp only [build_service_url_map, List.mem_map] at hmem
    rcases hmem with ⟨p, hp, heq⟩
    refine ⟨p.2, ?_, ?_, ?_, ?_⟩
    · cases heq; exact hp
    · cases heq; rfl
    · cases heq; exact dedupFirstSeen_sublist p.2
    · cases heq; exact dedupFirstSeen_nodup p.2
  · intro sm ov ea p e h
    simp only [labelEntry] at h
    repeat' split at h
    all_goals try simp_all
    all_goals (rw [← h])
  · intro su p e h
    simp only [externalEntry] at h
    repeat' split at h
    all_goals try simp_all
    all_goals (rw [← h])
    all_goals exact ⟨sortedDedupStr_nodup _, sortedDedupStr_sorted _⟩
  · intro n o e h
    simp only [overrideOnlyEntry] at h
    repeat' split at h
    all_goals try simp_all
    all_goals (rw [← h])

/-- Witness for C3 (amended): applied to a concrete map with a duplicated raw
URL list. -/
theorem C3_urls_shape_witness :
    ∃ raw, ("a", raw) ∈ (rawBuildServiceUrlMap [("a", ["u", "u"])] []).1 ∧
      ["u"] = dedupFirstSeen raw ∧ (["u"] : List String).Sublist raw ∧
      (["u"] : List String).Nodup :=
  C3_urls_shape.1 [("a", ["u", "u"])] [] "a" ["u"] (by decide)

end TraefikHome
